import Mathlib

/-!
Verification of the security core of the SSD e-commerce application:
session security (app/session_security.py), the authentication flow
(app/auth/routes.py), field encryption (app/encryption.py, app/models.py)
and audit logging (app/audit.py), shallowly embedded in Lean.

Timestamps are modelled as integers counting seconds (the Python code
compares datetime differences against timedelta(minutes=30) = 1800 s and
timedelta(hours=24) = 86400 s).
-/

namespace SSD

/-! ## Session model

The Flask session dictionary, restricted to the keys the security core
reads and writes.  A time-valued entry is `none` when the key is absent,
`some none` when the stored string is rejected by datetime.fromisoformat
(or is empty, which the code treats as absent before parsing), and
`some (some t)` when it parses to the timestamp `t`.  Strings written by
datetime.utcnow().isoformat() always parse back, so the code writes only
`some (some t)` values. -/

structure Session where
  user_id : Option Nat
  ip_address : Option String
  login_time : Option (Option Int)
  last_activity : Option (Option Int)
  mfa_user_id : Option Nat
  mfa_secret_setup : Option String
deriving Repr, DecidableEq

/-- Embedding of init_session_security (session_security.py lines 11-23):
stores the user id, the request IP and both timestamps (= now) in the
session. -/
def init_session_security (uid : Nat) (ip : String) (now : Int) (s : Session) : Session :=
  { s with
    user_id := some uid
    ip_address := some ip
    login_time := some (some now)
    last_activity := some (some now) }

/-- Embedding of is_session_expired (session_security.py lines 78-115):
expired when either timestamp is absent or unparseable, when inactivity
exceeds 30 minutes, or when the absolute session age exceeds 24 hours. -/
def is_session_expired (now : Int) (s : Session) : Bool :=
  match s.last_activity, s.login_time with
  | none, _ => true
  | _, none => true
  | some parsedLa, some parsedLt =>
    match parsedLa, parsedLt with
    | none, _ => true
    | _, none => true
    | some la, some lt =>
      if now - la > 1800 then true
      else if now - lt > 86400 then true
      else false

/-- Embedding of validate_ip_address (session_security.py lines 58-75):
session.get('ip_address') must equal request.remote_addr. -/
def validate_ip_address (request_ip : String) (s : Session) : Bool :=
  s.ip_address = some request_ip

/-- Embedding of validate_session (session_security.py lines 26-55).  The
result pairs the returned verdict with the session as left behind (the
last-activity refresh is its only mutation).  `authenticated` is
current_user.is_authenticated. -/
def validate_session (now : Int) (request_ip : String) (authenticated : Bool)
    (s : Session) : Bool × Session :=
  if !authenticated then (true, s)
  else if s.ip_address.isNone || s.last_activity.isNone then (false, s)
  else if !validate_ip_address request_ip s then (false, s)
  else if is_session_expired now s then (false, s)
  else (true, { s with last_activity := some (some now) })

/-- Embedding of clear_session_security (session_security.py lines
118-126): pops all six session-security keys. -/
def clear_session_security (_s : Session) : Session :=
  { user_id := none
    ip_address := none
    login_time := none
    last_activity := none
    mfa_user_id := none
    mfa_secret_setup := none }

/-! ## Authentication flow -/

/-- In-memory user record, restricted to the columns the login flow
reads (models.py class User). -/
structure UserRec where
  id : Nat
  email : String
  password_hash : String
  is_active : Bool
  mfa_enabled : Bool
  mfa_secret : Option String
deriving Repr, DecidableEq

/-- Authentication-relevant request state: the Flask-Login principal
(`current_user`, `none` when anonymous) and the session dictionary. -/
structure AuthState where
  current_user : Option Nat
  session : Session
deriving Repr, DecidableEq

/-- Embedding of User.query.filter_by(email=email).first(). -/
def findByEmail (db : List UserRec) (email : String) : Option UserRec :=
  db.find? (fun u => u.email = email)

/-- Embedding of User.query.get(uid). -/
def findById (db : List UserRec) (uid : Nat) : Option UserRec :=
  db.find? (fun u => u.id = uid)

/-- Embedding of the POST branch of the login route (auth/routes.py lines
98-127).  `checkPassword` abstracts bcrypt.check_password_hash (first
argument the stored hash, second the submitted password).  The returned
state is the request state after the route ran; redirects and flashes do
not affect it. -/
def login (checkPassword : String → String → Bool) (db : List UserRec)
    (email password : String) (now : Int) (request_ip : String)
    (st : AuthState) : AuthState :=
  if st.current_user.isSome then st
  else
    match findByEmail db email with
    | none => st
    | some u =>
      if checkPassword u.password_hash password then
        if !u.is_active then st
        else if u.mfa_enabled then
          { st with session := { st.session with mfa_user_id := some u.id } }
        else
          { current_user := some u.id
            session := init_session_security u.id request_ip now st.session }
      else st

/-- Embedding of the POST branch of verify_2fa_login (auth/routes.py
lines 249-277).  `totpVerify` abstracts pyotp.TOTP(secret).verify(code);
it receives the persisted account secret (possibly absent) and the
submitted code.  The guard `if not user_id` is a Python falsy check, so
a staged id of 0 redirects exactly like an absent one. -/
def verify_2fa_login (totpVerify : Option String → String → Bool)
    (db : List UserRec) (code : String) (now : Int) (request_ip : String)
    (st : AuthState) : AuthState :=
  if st.current_user.isSome then st
  else
    match st.session.mfa_user_id with
    | none => st
    | some uid =>
      if uid = 0 then st
      else
      match findById db uid with
      | none => st
      | some u =>
        if totpVerify u.mfa_secret code then
          { current_user := some u.id
            session :=
              { init_session_security u.id request_ip now st.session with
                mfa_user_id := none } }
        else st

/-- Embedding of the logout route (auth/routes.py lines 133-139) as it
runs for an authenticated user (login_required redirects anonymous
requests without touching the state). -/
def logout (st : AuthState) : AuthState :=
  { current_user := none
    session := clear_session_security st.session }

/-! ## Cipher (app/encryption.py)

The repository composes library primitives (AES-GCM from
cryptography.hazmat, base64, UTF-8 codecs); those primitives are
parameters of the embedding, packaged in `CryptoPrim`, with their
documented behaviour stated as explicit lawfulness propositions that the
theorems take as hypotheses.  Bytes are natural numbers. -/

structure CryptoPrim where
  /-- AES-GCM encryption: key, nonce and plaintext bytes to
  (ciphertext, authentication tag). -/
  encryptCore : List Nat → List Nat → List Nat → List Nat × List Nat
  /-- AES-GCM decryption with tag verification: key, nonce, tag and
  ciphertext to plaintext; `none` models the InvalidTag exception. -/
  decryptCore : List Nat → List Nat → List Nat → List Nat → Option (List Nat)
  /-- base64.b64encode of a byte string. -/
  b64encode : List Nat → String
  /-- base64.b64decode; `none` models binascii.Error. -/
  b64decode : String → Option (List Nat)
  /-- str.encode() (UTF-8). -/
  strEncode : String → List Nat
  /-- bytes.decode('utf-8'); `none` models UnicodeDecodeError. -/
  strDecode : List Nat → Option String

/-- GCM produces a 128-bit (16-byte) authentication tag. -/
def CryptoPrim.TagLen16 (P : CryptoPrim) : Prop :=
  ∀ k n pt, (P.encryptCore k n pt).2.length = 16

/-- Decrypting a genuine (ciphertext, tag) pair under the same key and
nonce recovers the plaintext. -/
def CryptoPrim.DecEnc (P : CryptoPrim) : Prop :=
  ∀ k n pt, P.decryptCore k n (P.encryptCore k n pt).2 (P.encryptCore k n pt).1 = some pt

/-- GCM authenticity: decryption succeeds only on a (ciphertext, tag)
pair that encryption under that key and nonce actually produces. -/
def CryptoPrim.AuthTag (P : CryptoPrim) : Prop :=
  ∀ k n tg ct pt, P.decryptCore k n tg ct = some pt → P.encryptCore k n pt = (ct, tg)

/-- base64 decoding inverts base64 encoding. -/
def CryptoPrim.B64RT (P : CryptoPrim) : Prop :=
  ∀ bs, P.b64decode (P.b64encode bs) = some bs

/-- UTF-8 decoding inverts UTF-8 encoding. -/
def CryptoPrim.StrRT (P : CryptoPrim) : Prop :=
  ∀ s, P.strDecode (P.strEncode s) = some s

/-- Embedding of AESCipher.encrypt (encryption.py lines 29-38).  The
random 12-byte nonce drawn by os.urandom(12) is passed explicitly.
Returns base64(nonce ++ tag ++ ciphertext); None passes through. -/
def AESCipher.encrypt (P : CryptoPrim) (key nonce : List Nat) :
    Option String → Option String
  | none => none
  | some raw =>
    let pt := P.strEncode raw
    let ct := (P.encryptCore key nonce pt).1
    let tag := (P.encryptCore key nonce pt).2
    some (P.b64encode (nonce ++ tag ++ ct))

/-- Embedding of AESCipher.decrypt (encryption.py lines 40-52): base64
decode, split at byte offsets 12 and 28, decrypt with tag verification;
every failure inside the try block (bad base64, tag mismatch, bad UTF-8)
is caught and yields None.  None passes through. -/
def AESCipher.decrypt (P : CryptoPrim) (key : List Nat) :
    Option String → Option String
  | none => none
  | some enc =>
    match P.b64decode enc with
    | none => none
    | some data =>
      let nonce := data.take 12
      let tag := (data.drop 12).take 16
      let ciphertext := data.drop 28
      match P.decryptCore key nonce tag ciphertext with
      | none => none
      | some pt => P.strDecode pt

/-- Embedding of AESCipher.__init__ (encryption.py lines 7-27) for a
string key (parameter or ENCRYPTION_KEY environment variable; `none`
models both being absent, and the empty string is falsy).  `b64dec`
models base64.urlsafe_b64decode, `strBytes` models str.encode(); when
decoding raises, the raw encoded bytes are used instead.  The result is
`some key_bytes` on success and `none` where the code raises
ValueError. -/
def AESCipher.init (b64dec : String → Option (List Nat))
    (strBytes : String → List Nat) (key_env : Option String) :
    Option (List Nat) :=
  match key_env with
  | none => none
  | some ks =>
    if ks = "" then none
    else
      let k :=
        match b64dec ks with
        | some bs => bs
        | none => strBytes ks
      if k.length = 32 then some k else none

/-! ## Encrypted-field adapter (app/models.py lines 13-27) -/

/-- Embedding of EncryptedString.process_bind_param: a non-null value is
replaced by cipher.encrypt(value) on the way to storage, null passes
through. -/
def EncryptedString.process_bind_param (P : CryptoPrim) (key nonce : List Nat) :
    Option String → Option String
  | none => none
  | some v => AESCipher.encrypt P key nonce (some v)

/-- Embedding of EncryptedString.process_result_value: a non-null stored
value is decrypted; if decryption fails (returns None) the raw stored
value is exposed unchanged; null passes through. -/
def EncryptedString.process_result_value (P : CryptoPrim) (key : List Nat) :
    Option String → Option String
  | none => none
  | some v =>
    match AESCipher.decrypt P key (some v) with
    | some decrypted => some decrypted
    | none => some v

/-- Columns of the User model declared with the EncryptedString type
(models.py lines 56-62). -/
def User.protected_fields : List String :=
  ["phone", "address", "mfa_secret"]

/-- Columns of the Order model declared with the EncryptedString type
(models.py lines 213-220). -/
def Order.protected_fields : List String :=
  ["shipping_address", "card_number", "card_expiry", "card_cvv", "bank_account"]

/-- Columns of the AuditLog model declared with the EncryptedString type
(models.py lines 264-281): none — every AuditLog column, including
details, is a plain type. -/
def AuditLog.protected_fields : List String := []

/-- Storage-layer transformation of one column value for a model with
the given protected-column list: EncryptedString columns go through
process_bind_param, all other columns are stored verbatim.  This models
SQLAlchemy applying the TypeDecorator of each column on write. -/
def storeColumn (protCols : List String) (P : CryptoPrim)
    (key nonce : List Nat) (col : String) (v : Option String) : Option String :=
  if col ∈ protCols then EncryptedString.process_bind_param P key nonce v
  else v

/-! ## Audit recorder (app/audit.py) -/

/-- Python values as they occur in audited columns. -/
inductive PyVal
  | none
  | str (s : String)
  | int (n : Int)
  | bool (b : Bool)
deriving Repr, DecidableEq

/-- Python str() on a PyVal, used for resource_id. -/
def pyStr : PyVal → String
  | .none => "None"
  | .str s => s
  | .int n => toString n
  | .bool true => "True"
  | .bool false => "False"

/-- SQLAlchemy attribute history of one column: values added and removed
by pending changes. -/
structure AttrHist where
  added : List PyVal
  deleted : List PyVal
deriving Repr, DecidableEq

/-- SQLAlchemy History.has_changes(): true when the history carries any
added or deleted value. -/
def AttrHist.has_changes (h : AttrHist) : Bool :=
  !h.added.isEmpty || !h.deleted.isEmpty

/-- An ORM-mapped entity as the audit listeners see it: its class name,
whether it is an AuditLog instance (the isinstance guard), its id, and
per column the key, the current in-memory value (getattr) and the
attribute history. -/
structure MappedEntity where
  resource_type : String
  is_audit_log : Bool
  entity_id : PyVal
  attrs : List (String × PyVal × AttrHist)
deriving Repr, DecidableEq

/-- The details payload handed to create_audit_log, kept structured
where the code serialises it with json.dumps(details, default=str): a
full column snapshot for INSERT/DELETE, per-column (old, new) pairs for
UPDATE. -/
inductive Details
  | snapshot (cols : List (String × PyVal))
  | diff (cols : List (String × PyVal × PyVal))
deriving Repr, DecidableEq

/-- Python truthiness of the details dict: an empty dict is falsy, so
`json.dumps(details) if details else None` stores null for it. -/
def Details.isTruthy : Details → Bool
  | .snapshot cols => !cols.isEmpty
  | .diff cols => !cols.isEmpty

/-- Request context read by the audit helpers: whether a Flask request
context is active, the authenticated principal (if any), the request IP
and the current time. -/
structure RequestCtx where
  has_request_context : Bool
  authenticated_user : Option Nat
  remote_addr : String
  now : Int
deriving Repr, DecidableEq

/-- Embedding of get_current_user_id (audit.py lines 9-13). -/
def get_current_user_id (ctx : RequestCtx) : Option Nat :=
  if ctx.has_request_context then ctx.authenticated_user else none

/-- Embedding of get_ip_address (audit.py lines 15-19). -/
def get_ip_address (ctx : RequestCtx) : String :=
  if ctx.has_request_context then ctx.remote_addr else "system"

/-- One row of the audit_logs table (models.py lines 264-281). -/
structure AuditRow where
  user_id : Option Nat
  action : String
  resource_type : String
  resource_id : String
  details : Option Details
  ip_address : String
  timestamp : Int
deriving Repr, DecidableEq

/-- Embedding of create_audit_log (audit.py lines 21-52).  Returns the
row inserted through the passed connection, or `none` when nothing is
written: when the target is itself an AuditLog instance (the recursion
guard) or when no connection was supplied (the fallback branch performs
no write).  The surrounding try/except swallows failures; the embedding
is total, so no failure arises. -/
def create_audit_log (ctx : RequestCtx) (action : String)
    (target : MappedEntity) (details : Option Details)
    (connection : Bool) : Option AuditRow :=
  if target.is_audit_log then none
  else
    let row : AuditRow :=
      { user_id := get_current_user_id ctx
        action := action
        resource_type := target.resource_type
        resource_id := pyStr target.entity_id
        details := details.bind (fun d => if d.isTruthy then some d else none)
        ip_address := get_ip_address ctx
        timestamp := ctx.now }
    if connection then some row else none

/-- Embedding of after_insert_listener (audit.py lines 54-57): details is
the snapshot of every mapped column's current in-memory value. -/
def after_insert_listener (ctx : RequestCtx) (target : MappedEntity) :
    Option AuditRow :=
  create_audit_log ctx "INSERT" target
    (some (.snapshot (target.attrs.map (fun a => (a.1, a.2.1))))) true

/-- The diff computed by after_update_listener: for every column whose
history has changes, the pair (deleted[0] if any else None,
added[0] if any else None). -/
def updateChanges (target : MappedEntity) : List (String × PyVal × PyVal) :=
  target.attrs.filterMap (fun a =>
    if a.2.2.has_changes then
      some (a.1, a.2.2.deleted.head?.getD PyVal.none,
            a.2.2.added.head?.getD PyVal.none)
    else none)

/-- Embedding of after_update_listener (audit.py lines 59-73): writes one
UPDATE row carrying the per-column diff, but only when the diff is
non-empty. -/
def after_update_listener (ctx : RequestCtx) (target : MappedEntity) :
    Option AuditRow :=
  let changes := updateChanges target
  if !changes.isEmpty then
    create_audit_log ctx "UPDATE" target (some (.diff changes)) true
  else none

/-- Embedding of after_delete_listener (audit.py lines 75-78). -/
def after_delete_listener (ctx : RequestCtx) (target : MappedEntity) :
    Option AuditRow :=
  create_audit_log ctx "DELETE" target
    (some (.snapshot (target.attrs.map (fun a => (a.1, a.2.1))))) true

/-- The model classes passed to register_audit_listeners by create_app
(app/__init__.py lines 153-157). -/
def audited_models : List String := ["User", "Order", "Product"]

/-! ## Concrete model of the library functions used by AESCipher.__init__

The key-loading path of the constructor is settled against a concrete
model of base64.urlsafe_b64decode (CPython semantics with validate=False:
translate the urlsafe alphabet, discard characters outside the base64
alphabet, require a character count that is a multiple of four, stop at
the first padding character) and of str.encode() (UTF-8). -/

/-- Value of one base64-alphabet character, `none` for characters
outside the (standard) alphabet. -/
def b64val (c : Char) : Option Nat :=
  if 65 ≤ c.toNat ∧ c.toNat ≤ 90 then some (c.toNat - 65)
  else if 97 ≤ c.toNat ∧ c.toNat ≤ 122 then some (c.toNat - 97 + 26)
  else if 48 ≤ c.toNat ∧ c.toNat ≤ 57 then some (c.toNat - 48 + 52)
  else if c = Char.ofNat 43 then some 62
  else if c = Char.ofNat 47 then some 63
  else none

/-- Base64 sextet groups to bytes: four sextets give three bytes; a
final group of three sextets gives two bytes and of two sextets one
byte. -/
def sextetsToBytes : List Nat → List Nat
  | a :: b :: c :: d :: rest =>
    (a * 4 + b / 16) :: ((b % 16) * 16 + c / 4) :: ((c % 4) * 64 + d) ::
      sextetsToBytes rest
  | [a, b] => [a * 4 + b / 16]
  | [a, b, c] => [a * 4 + b / 16, (b % 16) * 16 + c / 4]
  | _ => []

/-- Model of base64.urlsafe_b64decode as AESCipher.__init__ calls it:
`none` models binascii.Error (incorrect padding). -/
def pyUrlsafeB64decode (s : String) : Option (List Nat) :=
  let translated := s.data.map (fun c =>
    if c = Char.ofNat 45 then Char.ofNat 43
    else if c = Char.ofNat 95 then Char.ofNat 47
    else c)
  let kept := translated.filter (fun c => (b64val c).isSome || c = Char.ofNat 61)
  if kept.length % 4 ≠ 0 then none
  else
    let dataChars := kept.takeWhile (fun c => c ≠ Char.ofNat 61)
    let sextets := dataChars.filterMap b64val
    if sextets.length % 4 = 1 then none
    else some (sextetsToBytes sextets)

/-- UTF-8 encoding of one scalar value. -/
def utf8EncodeChar (c : Char) : List Nat :=
  let n := c.toNat
  if n < 128 then [n]
  else if n < 2048 then [192 + n / 64, 128 + n % 64]
  else if n < 65536 then [224 + n / 4096, 128 + n / 64 % 64, 128 + n % 64]
  else [240 + n / 262144, 128 + n / 4096 % 64, 128 + n / 64 % 64, 128 + n % 64]

/-- Model of str.encode() (UTF-8). -/
def pyStrBytes (s : String) : List Nat :=
  s.data.flatMap utf8EncodeChar

/-! ## A concrete lawful instance of the cipher primitives

Witness instantiation for the theorems that are generic in
`CryptoPrim`.  The byte-level container behaviour (splice layout, base64
and UTF-8 round-trips, authenticated rejection) is all the cipher code
under test relies on, so any instance satisfying the lawfulness
propositions will do; this one uses an identity cipher with a constant
16-byte tag, a unary byte-string encoding in place of base64 and a
scalar-value list in place of UTF-8. -/

/-- Constant 16-byte tag of the witness cipher. -/
def toyTag : List Nat := List.replicate 16 0

/-- Unary encoding of one number: n letters a followed by one b. -/
def toyEncNum (n : Nat) : List Char :=
  List.replicate n (Char.ofNat 97) ++ [Char.ofNat 98]

/-- Decoder for the unary encoding; the accumulator counts the letters a
read since the last b. -/
def toyDec : List Char → Nat → Option (List Nat)
  | [], 0 => some []
  | [], _ + 1 => none
  | c :: cs, k =>
    if c = Char.ofNat 97 then toyDec cs (k + 1)
    else if c = Char.ofNat 98 then (toyDec cs 0).map (fun l => k :: l)
    else none

/-- Witness instance of the cipher primitives. -/
def toyPrim : CryptoPrim where
  encryptCore := fun _ _ pt => (pt, toyTag)
  decryptCore := fun _ _ tg ct => if tg = toyTag then some ct else none
  b64encode := fun bs => String.mk (bs.flatMap toyEncNum)
  b64decode := fun s => toyDec s.data 0
  strEncode := fun s => s.data.map Char.toNat
  strDecode := fun bs => some (String.mk (bs.map Char.ofNat))

/-- A 32-byte key for the witness instance. -/
def toyKey : List Nat := List.replicate 32 7

/-! ## Helper lemmas -/

/-- Char.ofNat inverts Char.toNat. -/
theorem char_ofNat_toNat (c : Char) : Char.ofNat c.toNat = c := by
  have hv : c.toNat.isValidChar := c.valid
  unfold Char.ofNat
  rw [dif_pos hv]
  apply Char.eq_of_val_eq
  apply UInt32.eq_of_toBitVec_eq
  apply BitVec.eq_of_toNat_eq
  rfl

/-! ## C1: session validation -/

/-- C1: for an authenticated principal, validate_session returns a valid
verdict iff the session record binds the request IP, carries a parseable
last-activity timestamp at most 30 minutes old and a parseable login
timestamp at most 24 hours old; on a valid verdict the last-activity
timestamp is refreshed to now, and on an invalid verdict the session is
left untouched.  Any missing or unparseable field falsifies the
right-hand side, so a partially populated record yields an invalid
verdict; the embedding is a total function, so no exception can
arise.  (The user-id entry is not consulted by validate_session.) -/
theorem validate_session_correct (now : Int) (ip : String) (s : Session) :
    ((validate_session now ip true s).1 = true ↔
      (s.ip_address = some ip ∧
        ∃ la lt, s.last_activity = some (some la) ∧ s.login_time = some (some lt) ∧
          now - la ≤ 1800 ∧ now - lt ≤ 86400))
    ∧ ((validate_session now ip true s).1 = true →
        (validate_session now ip true s).2 = { s with last_activity := some (some now) })
    ∧ ((validate_session now ip true s).1 = false →
        (validate_session now ip true s).2 = s) := by
  rcases s with ⟨uid, ipA, lt, la, m1, m2⟩
  rcases ipA with _ | bip
  · simp [validate_session]
  rcases la with _ | la
  · simp [validate_session]
  by_cases hip : some bip = some ip
  · rcases la with _ | la
    · simp [validate_session, validate_ip_address, is_session_expired, hip]
      cases lt <;> simp
    · rcases lt with _ | lt
      · simp [validate_session, validate_ip_address, is_session_expired, hip]
      · rcases lt with _ | lt
        · simp [validate_session, validate_ip_address, is_session_expired, hip]
        · simp only [validate_session, validate_ip_address, is_session_expired, hip]
          by_cases h1 : now - la > 1800
          · simp [h1]
            intro h
            omega
          · by_cases h2 : now - lt > 86400
            · simp [h1, h2]
              intro h
              omega
            · simp [h1, h2]
              omega
  · rcases lt with _ | lt <;> rcases la with _ | la <;>
      simp [validate_session, validate_ip_address, is_session_expired, hip]

/-- C1 witness: a concretely populated fresh session validates and its
last-activity entry is refreshed to now. -/
theorem validate_session_correct_witness :
    (validate_session 2000 "1.2.3.4" true
      ⟨some 7, some "1.2.3.4", some (some 500), some (some 900), none, none⟩).1 = true
    ∧ (validate_session 2000 "1.2.3.4" true
        ⟨some 7, some "1.2.3.4", some (some 500), some (some 900), none, none⟩).2 =
      ⟨some 7, some "1.2.3.4", some (some 500), some (some 2000), none, none⟩ := by
  have h := validate_session_correct 2000 "1.2.3.4"
    ⟨some 7, some "1.2.3.4", some (some 500), some (some 900), none, none⟩
  have hv := h.1.mpr ⟨rfl, 900, 500, rfl, rfl, by decide, by decide⟩
  exact ⟨hv, h.2.1 hv⟩

/-! ## C2: MFA login gate -/

/-- C2: for an account with MFA enabled, a correct password alone leaves
the principal anonymous and the session-security record (user id, bound
IP, login time, last activity) untouched — only the pending-login marker
is staged; a subsequent incorrect TOTP code changes nothing, while a
correct TOTP code, checked against the persisted account secret via
`totpVerify u.mfa_secret`, completes the login and initialises the
session security record.  The id is assumed nonzero (database primary
keys start at 1): verify_2fa_login guards the staged id with a Python
falsy check, so a zero id would redirect to login instead. -/
theorem mfa_login_gate (checkPassword : String → String → Bool)
    (totpVerify : Option String → String → Bool) (db : List UserRec)
    (u : UserRec) (password code : String) (now now2 : Int) (ip ip2 : String)
    (st : AuthState)
    (hanon : st.current_user = none)
    (hfind : findByEmail db u.email = some u)
    (hpw : checkPassword u.password_hash password = true)
    (hactive : u.is_active = true)
    (hmfa : u.mfa_enabled = true)
    (hid : u.id ≠ 0)
    (hbyid : findById db u.id = some u) :
    ((login checkPassword db u.email password now ip st).current_user = none
      ∧ (login checkPassword db u.email password now ip st).session.user_id
          = st.session.user_id
      ∧ (login checkPassword db u.email password now ip st).session.ip_address
          = st.session.ip_address
      ∧ (login checkPassword db u.email password now ip st).session.login_time
          = st.session.login_time
      ∧ (login checkPassword db u.email password now ip st).session.last_activity
          = st.session.last_activity
      ∧ (login checkPassword db u.email password now ip st).session.mfa_user_id
          = some u.id)
    ∧ (totpVerify u.mfa_secret code = false →
        verify_2fa_login totpVerify db code now2 ip2
            (login checkPassword db u.email password now ip st)
          = login checkPassword db u.email password now ip st)
    ∧ (totpVerify u.mfa_secret code = true →
        (verify_2fa_login totpVerify db code now2 ip2
            (login checkPassword db u.email password now ip st)).current_user
          = some u.id
        ∧ (verify_2fa_login totpVerify db code now2 ip2
            (login checkPassword db u.email password now ip st)).session.user_id
          = some u.id
        ∧ (verify_2fa_login totpVerify db code now2 ip2
            (login checkPassword db u.email password now ip st)).session.ip_address
          = some ip2
        ∧ (verify_2fa_login totpVerify db code now2 ip2
            (login checkPassword db u.email password now ip st)).session.login_time
          = some (some now2)
        ∧ (verify_2fa_login totpVerify db code now2 ip2
            (login checkPassword db u.email password now ip st)).session.last_activity
          = some (some now2)) := by
  have hlog : login checkPassword db u.email password now ip st =
      { st with session := { st.session with mfa_user_id := some u.id } } := by
    simp [login, hanon, hfind, hpw, hactive, hmfa]
  rw [hlog]
  refine ⟨⟨hanon, rfl, rfl, rfl, rfl, rfl⟩, ?_, ?_⟩
  · intro hbad
    simp [verify_2fa_login, hanon, hbyid, hbad, hid]
  · intro hgood
    simp [verify_2fa_login, hanon, hbyid, hgood, hid, init_session_security]

/-- C2 witness: a concrete one-user database with MFA enabled; the
password step leaves the request anonymous, the correct TOTP code logs
the user in. -/
theorem mfa_login_gate_witness :
    (login (fun _ _ => true) [⟨1, "e", "H", true, true, some "SEC"⟩]
      "e" "pw" 10 "9.9.9.9" ⟨none, ⟨none, none, none, none, none, none⟩⟩).current_user
      = none
    ∧ (verify_2fa_login (fun sec c => decide (sec = some c))
        [⟨1, "e", "H", true, true, some "SEC"⟩] "SEC" 20 "9.9.9.9"
        (login (fun _ _ => true) [⟨1, "e", "H", true, true, some "SEC"⟩]
          "e" "pw" 10 "9.9.9.9"
          ⟨none, ⟨none, none, none, none, none, none⟩⟩)).current_user = some 1 := by
  have h := mfa_login_gate (fun _ _ => true) (fun sec c => decide (sec = some c))
    [⟨1, "e", "H", true, true, some "SEC"⟩] ⟨1, "e", "H", true, true, some "SEC"⟩
    "pw" "SEC" 10 20 "9.9.9.9" "9.9.9.9" ⟨none, ⟨none, none, none, none, none, none⟩⟩
    rfl (by decide) rfl rfl rfl (by decide) (by decide)
  exact ⟨h.1.1, (h.2.2 (by decide)).1⟩

/-! ## C8: clearing of pending MFA state -/

/-- C8 counterexample: a successful TOTP-verified login (the principal
ends up authenticated with the session security record initialised)
leaves a staged pending enrollment secret in the session, contradicting
the claim that every successful login clears all pending ephemeral MFA
state. -/
theorem pending_secret_survives_login :
    (verify_2fa_login (fun _ _ => true) [⟨1, "e", "H", true, true, some "SEC"⟩]
      "000000" 0 "1.1.1.1"
      ⟨none, ⟨none, none, none, none, some 1, some "PENDING"⟩⟩).current_user = some 1
    ∧ (verify_2fa_login (fun _ _ => true) [⟨1, "e", "H", true, true, some "SEC"⟩]
        "000000" 0 "1.1.1.1"
        ⟨none, ⟨none, none, none, none, some 1, some "PENDING"⟩⟩).session.mfa_secret_setup
      = some "PENDING" := by
  constructor <;> rfl

/-- C8 amended: logout (which runs clear_session_security) clears both
the pending-login user id and the pending enrollment secret; a
successful TOTP-verified login clears the pending-login user id but
leaves the pending enrollment secret unchanged; a successful non-MFA
password login leaves both pieces of pending MFA state unchanged. -/
theorem mfa_pending_state_clearing (checkPassword : String → String → Bool)
    (totpVerify : Option String → String → Bool) (db : List UserRec)
    (u v : UserRec) (password code : String) (now : Int) (ip : String)
    (st : AuthState) :
    ((logout st).session.mfa_user_id = none
      ∧ (logout st).session.mfa_secret_setup = none)
    ∧ (st.current_user = none → st.session.mfa_user_id = some u.id → u.id ≠ 0 →
        findById db u.id = some u → totpVerify u.mfa_secret code = true →
        (verify_2fa_login totpVerify db code now ip st).current_user = some u.id
        ∧ (verify_2fa_login totpVerify db code now ip st).session.mfa_user_id = none
        ∧ (verify_2fa_login totpVerify db code now ip st).session.mfa_secret_setup
          = st.session.mfa_secret_setup)
    ∧ (st.current_user = none → findByEmail db v.email = some v →
        checkPassword v.password_hash password = true → v.is_active = true →
        v.mfa_enabled = false →
        (login checkPassword db v.email password now ip st).current_user = some v.id
        ∧ (login checkPassword db v.email password now ip st).session.mfa_user_id
          = st.session.mfa_user_id
        ∧ (login checkPassword db v.email password now ip st).session.mfa_secret_setup
          = st.session.mfa_secret_setup) := by
  refine ⟨⟨rfl, rfl⟩, ?_, ?_⟩
  · intro hanon hpend hid hbyid hgood
    simp [verify_2fa_login, hanon, hpend, hid, hbyid, hgood, init_session_security]
  · intro hanon hfind hpw hactive hmfa
    simp [login, hanon, hfind, hpw, hactive, hmfa, init_session_security]

/-- C8 amended witness: concrete sessions exercising the logout branch
and both login branches. -/
theorem mfa_pending_state_clearing_witness :
    ((logout ⟨some 5, ⟨some 5, some "ip", some (some 0), some (some 0), some 1,
        some "P"⟩⟩).session.mfa_secret_setup = none)
    ∧ (verify_2fa_login (fun _ _ => true) [⟨1, "e", "H", true, true, some "SEC"⟩]
        "c" 0 "ip" ⟨none, ⟨none, none, none, none, some 1, some "P"⟩⟩).session.mfa_user_id
      = none
    ∧ (login (fun _ _ => true) [⟨2, "f", "H", true, false, none⟩] "f" "pw" 0 "ip"
        ⟨none, ⟨none, none, none, none, some 1, some "P"⟩⟩).session.mfa_secret_setup
      = some "P" := by
  have h := mfa_pending_state_clearing (fun _ _ => true) (fun _ _ => true)
    [⟨1, "e", "H", true, true, some "SEC"⟩] ⟨1, "e", "H", true, true, some "SEC"⟩
    ⟨2, "f", "H", true, false, none⟩ "pw" "c" 0 "ip"
    ⟨none, ⟨none, none, none, none, some 1, some "P"⟩⟩
  have h2 := mfa_pending_state_clearing (fun _ _ => true) (fun _ _ => true)
    [⟨2, "f", "H", true, false, none⟩] ⟨1, "e", "H", true, true, some "SEC"⟩
    ⟨2, "f", "H", true, false, none⟩ "pw" "c" 0 "ip"
    ⟨none, ⟨none, none, none, none, some 1, some "P"⟩⟩
  have h3 := mfa_pending_state_clearing (fun _ _ => true) (fun _ _ => true)
    [⟨1, "e", "H", true, true, some "SEC"⟩] ⟨1, "e", "H", true, true, some "SEC"⟩
    ⟨2, "f", "H", true, false, none⟩ "pw" "c" 0 "ip"
    ⟨some 5, ⟨some 5, some "ip", some (some 0), some (some 0), some 1, some "P"⟩⟩
  exact ⟨h3.1.2, (h.2.1 rfl rfl (by decide) (by decide) rfl).2.1,
    (h2.2.2 rfl (by decide) rfl rfl rfl).2.2⟩

/-! ## Lawfulness of the witness cipher primitives -/

/-- The witness instance produces 16-byte tags. -/
theorem toyPrim_tagLen : toyPrim.TagLen16 := by
  intro k n pt
  simp [toyPrim, toyTag]

/-- The witness instance decrypts what it encrypts. -/
theorem toyPrim_decEnc : toyPrim.DecEnc := by
  intro k n pt
  simp [toyPrim]

/-- The witness instance accepts only genuine (ciphertext, tag) pairs. -/
theorem toyPrim_auth : toyPrim.AuthTag := by
  intro k n tg ct pt h
  simp only [toyPrim] at h ⊢
  by_cases htg : tg = toyTag
  · rw [if_pos htg] at h
    cases h
    rw [htg]
  · rw [if_neg htg] at h
    cases h

/-- Decoding the unary encoding of one number prepended to a remainder. -/
theorem toyDec_encNum (n : Nat) (rest : List Char) (k : Nat) :
    toyDec (toyEncNum n ++ rest) k = (toyDec rest 0).map (fun l => (k + n) :: l) := by
  induction n generalizing k with
  | zero =>
    show toyDec (Char.ofNat 98 :: rest) k = _
    rw [toyDec, if_neg (by decide), if_pos rfl, Nat.add_zero]
  | succ m ih =>
    show toyDec (Char.ofNat 97 :: (List.replicate m (Char.ofNat 97) ++
      [Char.ofNat 98] ++ rest)) k = _
    rw [toyDec, if_pos rfl]
    have heq := ih (k + 1)
    rw [toyEncNum] at heq
    rw [heq]
    have : k + 1 + m = k + (m + 1) := by omega
    rw [this]

/-- The witness base64 round-trips. -/
theorem toyPrim_b64rt : toyPrim.B64RT := by
  intro bs
  show toyDec (String.mk (bs.flatMap toyEncNum)).data 0 = some bs
  induction bs with
  | nil => rfl
  | cons b tl ih =>
    show toyDec ((b :: tl).flatMap toyEncNum) 0 = some (b :: tl)
    rw [List.flatMap_cons, toyDec_encNum]
    have : toyDec (tl.flatMap toyEncNum) 0 = some tl := ih
    rw [this]
    simp

/-- The witness string codec round-trips. -/
theorem toyPrim_strrt : toyPrim.StrRT := by
  intro s
  show some (String.mk ((s.data.map Char.toNat).map Char.ofNat)) = some s
  rw [List.map_map]
  have : s.data.map (Char.ofNat ∘ Char.toNat) = s.data.map id := by
    apply List.map_congr_left
    intro c _
    exact char_ofNat_toNat c
  rw [this, List.map_id]

/-! ## C3: encryption round-trip -/

/-- C3: for every string s and every 12-byte nonce, decrypting the
encryption of s recovers s, given the documented behaviour of the
library primitives: GCM tags are 16 bytes, GCM decryption inverts
encryption, and the base64 and UTF-8 codecs round-trip.  The proof goes
through the wire format base64(nonce ++ tag ++ ciphertext) and the fixed
parse offsets 12 and 28 used by decrypt. -/
theorem decrypt_parse (P : CryptoPrim) (key : List Nat) (enc : String)
    (data : List Nat) (h : P.b64decode enc = some data) :
    AESCipher.decrypt P key (some enc) =
      match P.decryptCore key (data.take 12) ((data.drop 12).take 16)
          (data.drop 28) with
      | none => none
      | some pt => P.strDecode pt := by
  simp [AESCipher.decrypt, h]

theorem decrypt_encrypt_roundtrip (P : CryptoPrim) (key nonce : List Nat)
    (s : String) (hn : nonce.length = 12) (h16 : P.TagLen16) (hde : P.DecEnc)
    (hb : P.B64RT) (hs : P.StrRT) :
    AESCipher.decrypt P key (AESCipher.encrypt P key nonce (some s)) = some s := by
  have htag : (P.encryptCore key nonce (P.strEncode s)).2.length = 16 := h16 _ _ _
  simp only [AESCipher.encrypt]
  rw [List.append_assoc, decrypt_parse P key _ _ (hb _)]
  have h1 : (nonce ++ ((P.encryptCore key nonce (P.strEncode s)).2 ++
      (P.encryptCore key nonce (P.strEncode s)).1)).take 12 = nonce :=
    List.take_left' hn
  have h2 : (nonce ++ ((P.encryptCore key nonce (P.strEncode s)).2 ++
      (P.encryptCore key nonce (P.strEncode s)).1)).drop 12 =
      (P.encryptCore key nonce (P.strEncode s)).2 ++
        (P.encryptCore key nonce (P.strEncode s)).1 :=
    List.drop_left' hn
  have h3 : ((nonce ++ ((P.encryptCore key nonce (P.strEncode s)).2 ++
      (P.encryptCore key nonce (P.strEncode s)).1)).drop 12).take 16 =
      (P.encryptCore key nonce (P.strEncode s)).2 := by
    rw [h2]
    exact List.take_left' htag
  have h4 : (nonce ++ ((P.encryptCore key nonce (P.strEncode s)).2 ++
      (P.encryptCore key nonce (P.strEncode s)).1)).drop 28 =
      (P.encryptCore key nonce (P.strEncode s)).1 := by
    have hdd : (nonce ++ ((P.encryptCore key nonce (P.strEncode s)).2 ++
        (P.encryptCore key nonce (P.strEncode s)).1)).drop 28 =
        ((nonce ++ ((P.encryptCore key nonce (P.strEncode s)).2 ++
          (P.encryptCore key nonce (P.strEncode s)).1)).drop 12).drop 16 := by
      rw [List.drop_drop]
    rw [hdd, h2, List.drop_left' htag]
  rw [h1, h3, h4, hde]
  exact hs s

/-- C3 witness: the round-trip evaluated on the witness primitives at a
concrete nonce and string. -/
theorem decrypt_encrypt_roundtrip_witness :
    AESCipher.decrypt toyPrim toyKey
      (AESCipher.encrypt toyPrim toyKey (List.replicate 12 0) (some "ab"))
      = some "ab" :=
  decrypt_encrypt_roundtrip toyPrim toyKey (List.replicate 12 0) "ab"
    (by decide) toyPrim_tagLen toyPrim_decEnc toyPrim_b64rt toyPrim_strrt

/-! ## C5: fail-closed decryption -/

/-- C5: decrypt returns the failed signal (None) on every malformed or
tag-mismatched token and, being a total function, never raises: if
base64 decoding fails the result is None, and if it yields bytes whose
offset-12/28 split is not a (ciphertext, tag) pair genuinely produced by
encryption under this key and the token's nonce region — any tampered
nonce, tag or ciphertext byte, or a truncation, gives such a pair by GCM
authenticity — the result is None as well. -/
theorem decrypt_fail_closed (P : CryptoPrim) (key : List Nat)
    (hauth : P.AuthTag) (t : String) :
    (P.b64decode t = none → AESCipher.decrypt P key (some t) = none)
    ∧ ∀ data, P.b64decode t = some data →
        (∀ pt, P.encryptCore key (data.take 12) pt ≠
          (data.drop 28, (data.drop 12).take 16)) →
        AESCipher.decrypt P key (some t) = none := by
  constructor
  · intro h
    simp [AESCipher.decrypt, h]
  · intro data hdata hne
    simp only [AESCipher.decrypt, hdata]
    cases hdec : P.decryptCore key (data.take 12) ((data.drop 12).take 16)
        (data.drop 28) with
    | none => rfl
    | some pt => exact absurd (hauth _ _ _ _ _ hdec) (hne pt)

/-- C5 witness: a token whose tag region was tampered with (first tag
byte flipped from 0 to 1) decrypts to None on the witness primitives. -/
theorem decrypt_fail_closed_witness :
    AESCipher.decrypt toyPrim toyKey
      (some (String.mk (((List.replicate 12 0) ++ ((1 : Nat) :: List.replicate 15 0)
        ++ [5]).flatMap toyEncNum))) = none := by
  have h := (decrypt_fail_closed toyPrim toyKey toyPrim_auth
    (String.mk (((List.replicate 12 0) ++ ((1 : Nat) :: List.replicate 15 0)
      ++ [5]).flatMap toyEncNum))).2
    ((List.replicate 12 0) ++ ((1 : Nat) :: List.replicate 15 0) ++ [5])
  refine h (by decide) ?_
  intro pt hc
  have h2 := congrArg Prod.snd hc
  simp only [toyPrim] at h2
  exact absurd h2 (by decide)

/-! ## C4: encrypted-field read fallback -/

/-- C4: the adapter's read path is total (never surfaces an error): a
null stored value passes through as null, a stored value the cipher
decrypts is exposed as the decrypted plaintext, and a stored value on
which decryption fails is exposed raw and unchanged. -/
theorem encrypted_field_read (P : CryptoPrim) (key : List Nat) (v : String) :
    EncryptedString.process_result_value P key none = none
    ∧ (∀ d, AESCipher.decrypt P key (some v) = some d →
        EncryptedString.process_result_value P key (some v) = some d)
    ∧ (AESCipher.decrypt P key (some v) = none →
        EncryptedString.process_result_value P key (some v) = some v) := by
  refine ⟨rfl, ?_, ?_⟩
  · intro d h
    simp [EncryptedString.process_result_value, h]
  · intro h
    simp [EncryptedString.process_result_value, h]

/-- C4 witness: on the witness primitives, the stored string a (legacy
plaintext; not valid output of the unary base64) fails decryption and is
exposed unchanged. -/
theorem encrypted_field_read_witness :
    EncryptedString.process_result_value toyPrim toyKey (some "a") = some "a" :=
  (encrypted_field_read toyPrim toyKey "a").2.2 (by decide)

/-! ## C6: update-hook diff -/

/-- C6: for a non-AuditLog target, the update hook writes no audit row
iff no column history carries a change, and when it writes a row, it is
a single UPDATE row whose details are exactly the changed columns, each
as the pair (old = first deleted value or None, new = first added value
or None): a triple (k, old, new) appears in the diff iff some column
(k, v, h) of the target has a changed history h with those old/new
values. -/
theorem audit_update_diff (ctx : RequestCtx) (tgt : MappedEntity)
    (hnot : tgt.is_audit_log = false) :
    (after_update_listener ctx tgt = none ↔
      ∀ a ∈ tgt.attrs, a.2.2.has_changes = false)
    ∧ ∀ row, after_update_listener ctx tgt = some row →
        row.action = "UPDATE"
        ∧ ∃ cs, row.details = some (.diff cs)
          ∧ ∀ k vold vnew, (k, vold, vnew) ∈ cs ↔
              ∃ v h, (k, v, h) ∈ tgt.attrs ∧ h.has_changes = true
                ∧ vold = h.deleted.head?.getD PyVal.none
                ∧ vnew = h.added.head?.getD PyVal.none := by
  have hchar : updateChanges tgt = [] ↔ ∀ a ∈ tgt.attrs, a.2.2.has_changes = false := by
    rw [updateChanges, List.filterMap_eq_nil_iff]
    constructor
    · intro h a ha
      have := h a ha
      by_cases hc : a.2.2.has_changes
      · rw [if_pos hc] at this
        cases this
      · exact Bool.not_eq_true _ ▸ (by simpa using hc)
    · intro h a ha
      rw [if_neg (by simp [h a ha])]
  constructor
  · by_cases hemp : updateChanges tgt = []
    · constructor
      · intro _
        exact hchar.mp hemp
      · intro _
        simp [after_update_listener, hemp]
    · have : after_update_listener ctx tgt =
          create_audit_log ctx "UPDATE" tgt (some (.diff (updateChanges tgt))) true := by
        simp [after_update_listener, hemp]
      rw [this]
      simp only [create_audit_log, hnot, Bool.false_eq_true, if_false, if_true]
      constructor
      · intro h
        cases h
      · intro h
        exact absurd (hchar.mpr h) hemp
  · intro row hrow
    have hemp : ¬ updateChanges tgt = [] := by
      intro hemp
      rw [after_update_listener] at hrow
      simp [hemp] at hrow
    have hrow2 : create_audit_log ctx "UPDATE" tgt
        (some (.diff (updateChanges tgt))) true = some row := by
      rw [after_update_listener] at hrow
      simpa [hemp] using hrow
    rw [create_audit_log] at hrow2
    rw [if_neg (by simp [hnot])] at hrow2
    simp only [if_true] at hrow2
    have htruthy : Details.isTruthy (.diff (updateChanges tgt)) = true := by
      simp [Details.isTruthy, hemp]
    cases hrow2
    refine ⟨rfl, updateChanges tgt, by simp [htruthy], ?_⟩
    intro k vold vnew
    rw [updateChanges, List.mem_filterMap]
    constructor
    · rintro ⟨a, ha, hfa⟩
      by_cases hc : a.2.2.has_changes
      · rw [if_pos hc] at hfa
        cases hfa
        exact ⟨a.2.1, a.2.2, by simpa using ha, hc, rfl, rfl⟩
      · rw [if_neg hc] at hfa
        cases hfa
    · rintro ⟨v, h, ha, hc, hold, hnew⟩
      refine ⟨(k, v, h), ha, ?_⟩
      rw [if_pos hc, hold, hnew]

/-- C6 witness: a concrete entity with one changed and one unchanged
column exercises both sides of the characterisation. -/
theorem audit_update_diff_witness :
    (after_update_listener ⟨true, some 9, "2.2.2.2", 50⟩
        ⟨"User", false, .int 1,
          [("email", .str "a", ⟨[], []⟩),
           ("phone", .str "q", ⟨[.str "q"], [.str "p"]⟩)]⟩ = none ↔
      ∀ a ∈ [("email", PyVal.str "a", (⟨[], []⟩ : AttrHist)),
             ("phone", PyVal.str "q", (⟨[.str "q"], [.str "p"]⟩ : AttrHist))],
        a.2.2.has_changes = false) :=
  (audit_update_diff ⟨true, some 9, "2.2.2.2", 50⟩
    ⟨"User", false, .int 1,
      [("email", .str "a", ⟨[], []⟩),
       ("phone", .str "q", ⟨[.str "q"], [.str "p"]⟩)]⟩ rfl).1

/-! ## C7: audit self-exclusion -/

/-- C7: no audit hook and no call of the recorder ever writes a row for
an AuditLog target — the isinstance guard returns before any insert —
and the AuditLog model is moreover not among the models the application
factory registers the listeners for, so recursive logging is
structurally impossible. -/
theorem audit_self_exclusion (ctx : RequestCtx) (tgt : MappedEntity)
    (hself : tgt.is_audit_log = true) :
    (∀ action details conn, create_audit_log ctx action tgt details conn = none)
    ∧ after_insert_listener ctx tgt = none
    ∧ after_update_listener ctx tgt = none
    ∧ after_delete_listener ctx tgt = none
    ∧ "AuditLog" ∉ audited_models := by
  have hguard : ∀ action details conn,
      create_audit_log ctx action tgt details conn = none := by
    intro action details conn
    simp [create_audit_log, hself]
  refine ⟨hguard, hguard _ _ _, ?_, hguard _ _ _, by decide⟩
  rw [after_update_listener]
  by_cases hemp : updateChanges tgt = []
  · simp [hemp]
  · simp [hemp, hguard]

/-- C7 witness: the guard evaluated on a concrete AuditLog entity. -/
theorem audit_self_exclusion_witness :
    after_insert_listener ⟨true, some 3, "8.8.8.8", 1⟩
      ⟨"AuditLog", true, .int 44,
        [("action", .str "INSERT", ⟨[], []⟩)]⟩ = none :=
  (audit_self_exclusion ⟨true, some 3, "8.8.8.8", 1⟩
    ⟨"AuditLog", true, .int 44, [("action", .str "INSERT", ⟨[], []⟩)]⟩ rfl).2.1

/-! ## C10: audit details carry in-memory plaintext -/

/-- C10: the insert and delete hooks snapshot every column's current
in-memory value into the details payload verbatim — for protected
columns the in-memory value is the decrypted plaintext, since reads pass
through process_result_value — and such a row is always produced for a
non-AuditLog target with at least one column; the details column of the
AuditLog model is not an EncryptedString column, so the stored details
equal the payload unencrypted, whereas a protected User column is stored
as its encryption. -/
theorem audit_details_plaintext (ctx : RequestCtx) (tgt : MappedEntity)
    (hnot : tgt.is_audit_log = false) (hne : tgt.attrs ≠ []) :
    (∀ row, after_insert_listener ctx tgt = some row →
        row.details = some (.snapshot (tgt.attrs.map (fun a => (a.1, a.2.1)))))
    ∧ (∀ row, after_delete_listener ctx tgt = some row →
        row.details = some (.snapshot (tgt.attrs.map (fun a => (a.1, a.2.1)))))
    ∧ (∃ row, after_insert_listener ctx tgt = some row)
    ∧ (∀ P key nonce v,
        storeColumn AuditLog.protected_fields P key nonce "details" v = v)
    ∧ (∀ P key nonce col s, col ∈ User.protected_fields →
        storeColumn User.protected_fields P key nonce col (some s) =
          AESCipher.encrypt P key nonce (some s)) := by
  have htruthy : Details.isTruthy
      (.snapshot (tgt.attrs.map (fun a => (a.1, a.2.1)))) = true := by
    simp [Details.isTruthy, hne]
  refine ⟨?_, ?_, ?_, ?_, ?_⟩
  · intro row hrow
    rw [after_insert_listener, create_audit_log, if_neg (by simp [hnot])] at hrow
    simp only [if_true] at hrow
    cases hrow
    simp [htruthy]
  · intro row hrow
    rw [after_delete_listener, create_audit_log, if_neg (by simp [hnot])] at hrow
    simp only [if_true] at hrow
    cases hrow
    simp [htruthy]
  · rw [after_insert_listener, create_audit_log, if_neg (by simp [hnot])]
    exact ⟨_, rfl⟩
  · intro P key nonce v
    rw [storeColumn, if_neg (by decide)]
  · intro P key nonce col s hcol
    rw [storeColumn, if_pos hcol]
    rfl

/-- C10 witness: a concrete User entity with a protected phone column;
its insert audit row snapshots the in-memory plaintext. -/
theorem audit_details_plaintext_witness :
    (⟨some 2, "INSERT", "User", "5",
      some (.snapshot [("phone", PyVal.str "555-1234")]), "3.3.3.3", 9⟩ :
        AuditRow).details
      = some (.snapshot [("phone", PyVal.str "555-1234")]) :=
  (audit_details_plaintext ⟨true, some 2, "3.3.3.3", 9⟩
    ⟨"User", false, .int 5, [("phone", .str "555-1234", ⟨[], []⟩)]⟩
    rfl (by decide)).1
    ⟨some 2, "INSERT", "User", "5",
      some (.snapshot [("phone", PyVal.str "555-1234")]), "3.3.3.3", 9⟩
    (by decide)

/-! ## C9: cipher construction key check -/

/-- C9 counterexample: the 32-character key below is rejected by
base64.urlsafe_b64decode (after discarding the non-alphabet character,
31 characters remain, which is not a multiple of four — incorrect
padding), yet AESCipher construction succeeds, because the except branch
falls back to the raw UTF-8 encoding of the key string, which is exactly
32 bytes.  The claim that construction fails for every key that does not
base64-decode to 32 bytes is therefore false. -/
theorem cipher_init_raw_fallback :
    pyUrlsafeB64decode "AAAAAAAAAAAAAAAAAAAAAAAAAAAAAAA!" = none
    ∧ AESCipher.init pyUrlsafeB64decode pyStrBytes
        (some "AAAAAAAAAAAAAAAAAAAAAAAAAAAAAAA!")
      = some (pyStrBytes "AAAAAAAAAAAAAAAAAAAAAAAAAAAAAAA!")
    ∧ (pyStrBytes "AAAAAAAAAAAAAAAAAAAAAAAAAAAAAAA!").length = 32 := by
  refine ⟨by decide, ?_, by decide⟩
  decide

/-- C9 amended: construction succeeds iff a non-empty key string is
configured and the effective key — its base64 decoding when decoding
succeeds, otherwise the raw bytes of its encoding — is exactly 32
bytes; it raises in every other case. -/
theorem cipher_init_key_check (b64dec : String → Option (List Nat))
    (strBytes : String → List Nat) (ks : Option String) :
    (AESCipher.init b64dec strBytes ks).isSome = true ↔
      ∃ s, ks = some s ∧ s ≠ "" ∧ ((b64dec s).getD (strBytes s)).length = 32 := by
  cases ks with
  | none => simp [AESCipher.init]
  | some s =>
    by_cases hs : s = ""
    · simp [AESCipher.init, hs]
    · cases hdec : b64dec s with
      | none => simp [AESCipher.init, hs, hdec]
      | some bs => simp [AESCipher.init, hs, hdec]

end SSD
